import Mathlib

/-!
Shallow embedding of the stateful KV-cache decoding core of
`Examples/Mistral7B` (`export.py` and `generate.py`):

* `SliceUpdateKeyValueCache` — two 5-d buffers
  `(numLayers, batchSize, numKVHeads, maxContextLength, headDim)` plus a
  `past_seen_tokens` counter, with slice-bounded write (`update`) and the
  prefix read it returns.  Buffers are modelled as total functions from the
  five indices to `Int`; torch slice assignment is modelled with its
  clamping of out-of-range slice bounds and its broadcasting rule
  (a source dimension matches a destination dimension when they are equal
  or the source dimension is 1).
* the causal mask built by `inference` in `generate.py`
  (`np.triu(np.full(..., -inf if num_past == 0 else 0), k=1)`), with the
  value domain `WithBot Int` (`⊥` plays the role of `-inf`).
* the greedy sampler `sample` (`np.argmax(logits[0][-1])`, first index of
  the maximum).
* the driver loop of `get_next_token` / `generate`.
-/

namespace Mistral7B

/-- A 4-d tensor chunk, shape `(batch, heads, positions, headDim)`, as
produced by the per-layer key/value projections (`k_state` / `v_state`)
and as returned by the cache read.  `data` is a total function; cells
outside the recorded shape are irrelevant for written chunks and are
normalised to `0` in chunks returned by reads. -/
structure Chunk where
  batch : Nat
  heads : Nat
  positions : Nat
  headDim : Nat
  data : Nat → Nat → Nat → Nat → Int

/-- The `SliceUpdateKeyValueCache`: shape fields, the two zero-initialised
buffers (indexed layer, batch, head, position, feature) and the
`past_seen_tokens` counter. -/
structure KVCache where
  numLayers : Nat
  batchSize : Nat
  numKVHeads : Nat
  maxContextLength : Nat
  headDim : Nat
  past_seen_tokens : Nat
  k_cache : Nat → Nat → Nat → Nat → Nat → Int
  v_cache : Nat → Nat → Nat → Nat → Nat → Int

/-- Length of the torch slice `[b:e)` of an axis of size `size`:
both bounds clamp to `size` (nonnegative bounds). -/
def sliceLen (size b e : Nat) : Nat := min e size - min b size

/-- Torch broadcasting of a source dimension onto a destination
dimension in slice assignment: legal iff they are equal or the source
dimension is 1. -/
def bcastDim (src dst : Nat) : Bool := src == dst || src == 1

/-- Source index corresponding to destination offset `i` under
broadcasting: a size-1 source dimension is read at 0. -/
def srcIdx (srcDim i : Nat) : Nat := if srcDim = 1 then 0 else i

/-- Whether the slice assignment
`buf[layer, :, : chunk.heads, b:e, :] = chunk` is accepted by torch:
every chunk dimension must broadcast onto the destination slice's
dimension.  The head-axis destination is `[0 : chunk.heads)` clamped to
`numKVHeads`; the position-axis destination is `[b : e)` clamped to
`maxContextLength`. -/
def assignOk (c : KVCache) (chunk : Chunk) (b e : Nat) : Bool :=
  bcastDim chunk.batch c.batchSize &&
  bcastDim chunk.heads (min chunk.heads c.numKVHeads) &&
  bcastDim chunk.positions (sliceLen c.maxContextLength b e) &&
  bcastDim chunk.headDim c.headDim

/-- The new buffer produced by the slice assignment
`buf[layer, :, : chunk.heads, b:e, :] = chunk`: cells of layer `layer`
with batch index in range, head index below `min chunk.heads numKVHeads`,
position in the clamped range `[min b max, min e max)` and feature index
in range receive the broadcast chunk value; all other cells keep their
contents. -/
def writeBuf (buf : Nat → Nat → Nat → Nat → Nat → Int)
    (batchSize numKVHeads maxCtx headDim : Nat) (chunk : Chunk)
    (layer b e : Nat) : Nat → Nat → Nat → Nat → Nat → Int :=
  fun l bb h p d =>
    if l = layer ∧ bb < batchSize ∧ h < min chunk.heads numKVHeads ∧
        min b maxCtx ≤ p ∧ p < min e maxCtx ∧ d < headDim then
      chunk.data (srcIdx chunk.batch bb) (srcIdx chunk.heads h)
        (srcIdx chunk.positions (p - min b maxCtx)) (srcIdx chunk.headDim d)
    else buf l bb h p d

/-- The key-buffer slice assignment
`k_cache[layer, :, : chunk.heads, b:e, :] = chunk` (line 55 of
`export.py`). -/
def writeK (c : KVCache) (chunk : Chunk) (layer b e : Nat) : KVCache :=
  { c with k_cache :=
      writeBuf c.k_cache c.batchSize c.numKVHeads c.maxContextLength c.headDim chunk layer b e }

/-- The value-buffer slice assignment (line 56 of `export.py`). -/
def writeV (c : KVCache) (chunk : Chunk) (layer b e : Nat) : KVCache :=
  { c with v_cache :=
      writeBuf c.v_cache c.batchSize c.numKVHeads c.maxContextLength c.headDim chunk layer b e }

/-- Data function of the read-only prefix `buf[layer, :, :, :e, :]`:
cells outside the slice's shape are normalised to `0`, so the result
carries no information about positions `≥ e`. -/
def readBuf (buf : Nat → Nat → Nat → Nat → Nat → Int)
    (batchSize numKVHeads maxCtx headDim : Nat)
    (layer e : Nat) : Nat → Nat → Nat → Nat → Int :=
  fun bb h p d =>
    if bb < batchSize ∧ h < numKVHeads ∧ p < min e maxCtx ∧ d < headDim then
      buf layer bb h p d
    else 0

/-- The slice `k_cache[layer, :, :, :e, :]` (line 57 of `export.py`): the read-only
prefix of the key buffer of one layer up to position `min e max`. -/
def readPrefixK (c : KVCache) (layer e : Nat) : Chunk :=
  { batch := c.batchSize, heads := c.numKVHeads,
    positions := min e c.maxContextLength, headDim := c.headDim,
    data := readBuf c.k_cache c.batchSize c.numKVHeads c.maxContextLength c.headDim layer e }

/-- The slice `v_cache[layer, :, :, :e, :]` (line 58 of `export.py`). -/
def readPrefixV (c : KVCache) (layer e : Nat) : Chunk :=
  { batch := c.batchSize, heads := c.numKVHeads,
    positions := min e c.maxContextLength, headDim := c.headDim,
    data := readBuf c.v_cache c.batchSize c.numKVHeads c.maxContextLength c.headDim layer e }

/-- Errors raised inside `SliceUpdateKeyValueCache.update`:
the explicit `ValueError` of line 52, torch's `IndexError` for a layer
index out of range, and torch's `RuntimeError` when the chunk does not
broadcast onto the destination slice. -/
inductive UpdateError where
  | valueError
  | indexError
  | shapeMismatch
  deriving DecidableEq, Repr

/-- The method `SliceUpdateKeyValueCache.update` (lines 41–59 of `export.py`).
Checks `len(slice_indices) == 2`, then performs the two slice
assignments in order (key first) and returns the `[0:end)` prefixes of
both buffers for the layer.  The second component of the result is the
cache after the call: unchanged on `ValueError`, `IndexError`, or a key
shape mismatch; with only the key written when the value assignment is
the one that fails. -/
def update (c : KVCache) (k_state v_state : Chunk) (layer : Nat)
    (slice_indices : List Nat) : Except UpdateError (Chunk × Chunk) × KVCache :=
  if slice_indices.length ≠ 2 then (Except.error UpdateError.valueError, c)
  else
    let b := slice_indices.getD 0 0
    let e := slice_indices.getD 1 0
    if c.numLayers ≤ layer then (Except.error UpdateError.indexError, c)
    else if ¬ assignOk c k_state b e then (Except.error UpdateError.shapeMismatch, c)
    else
      let c1 := writeK c k_state layer b e
      if ¬ assignOk c1 v_state b e then (Except.error UpdateError.shapeMismatch, c1)
      else
        let c2 := writeV c1 v_state layer b e
        (Except.ok (readPrefixK c2 layer e, readPrefixV c2 layer e), c2)

/-- Error raised by `torch.zeros` at cache construction: the only way a
shape can be rejected is a negative dimension (a `RuntimeError`);
zero-sized dimensions are accepted and produce empty buffers. -/
inductive InitError where
  | negativeDim
  deriving DecidableEq, Repr

/-- The constructor `SliceUpdateKeyValueCache.__init__` (lines 29–39 of `export.py`) with
the shape `(numLayers, batchSize, numKVHeads, maxContextLength, headDim)`
used by `StatefulMistralForCausalLM.__init__`: sets
`past_seen_tokens = 0` and allocates both buffers with `torch.zeros`,
which fails iff some dimension is negative and otherwise zero-fills. -/
def initCache (numLayers batchSize numKVHeads maxContextLength headDim : Int) :
    Except InitError KVCache :=
  if numLayers < 0 ∨ batchSize < 0 ∨ numKVHeads < 0 ∨ maxContextLength < 0 ∨ headDim < 0 then
    Except.error InitError.negativeDim
  else
    Except.ok
      { numLayers := numLayers.toNat, batchSize := batchSize.toNat,
        numKVHeads := numKVHeads.toNat, maxContextLength := maxContextLength.toNat,
        headDim := headDim.toNat, past_seen_tokens := 0,
        k_cache := fun _ _ _ _ _ => 0, v_cache := fun _ _ _ _ _ => 0 }

/-- The causal mask of `inference` in `generate.py` (lines 31–37),
broadcast dimensions dropped: a matrix of shape
`(inputLen, num_past + inputLen)` built by
`np.triu(np.full(shape, -inf if num_past == 0 else 0), k=1)`.
The value domain is `WithBot Int`, with `⊥` standing for `-inf`. -/
structure Mask where
  rows : Nat
  cols : Nat
  entry : Nat → Nat → WithBot Int

/-- The fill value of `np.full` in `inference`: `-inf` on the prompt
step (`num_past_tokens == 0`), `0` afterwards. -/
def maskFill (num_past : Nat) : WithBot Int :=
  if num_past = 0 then ⊥ else 0

/-- The mask `buildMask num_past inputLen` is the mask `inference` passes to the
model: `np.triu(..., k=1)` keeps the fill value strictly above the main
diagonal (`j ≥ i + 1`) and zeroes everything else. -/
def buildMask (num_past inputLen : Nat) : Mask :=
  { rows := inputLen, cols := num_past + inputLen,
    entry := fun i j => if i + 1 ≤ j then maskFill num_past else 0 }

/-- The mask-construction phase of `inference` as a state-passing
function: it builds the mask from the two integers only and leaves the
cache state untouched (the cache is first consulted by `model.predict`,
after the mask exists). -/
def inferenceMask (c : KVCache) (num_past inputLen : Nat) : Mask × KVCache :=
  (buildMask num_past inputLen, c)

/-- Width of the last mask axis as built by `inference`
(`num_past_tokens + input_ids.shape[-1]`). -/
def inferenceMaskCols (num_past inputLen : Nat) : Nat := num_past + inputLen

/-- Line 150 of `StatefulMistralForCausalLM.forward`: the occupancy the
model derives for the step, `causal_mask.shape[-1] - input_ids.shape[-1]`
(Python int subtraction; the driver always supplies
`maskCols = num_past + inputLen ≥ inputLen`, so `Nat` subtraction agrees). -/
def pastSeenOf (maskCols inputLen : Nat) : Nat := maskCols - inputLen

/-- Lines 97–102 of `SliceUpdateMistralAttention.forward`: the slice bounds
passed to `update` are `(end_step - q_len, end_step)` with
`end_step = attention_mask.shape[-1]`. -/
def sliceIndicesOf (maskCols q_len : Nat) : Nat × Nat :=
  (maskCols - q_len, maskCols)

/-- The per-layer attention step around the cache (lines 96–113 of
`export.py`), with the projections, rotary embedding and the
scaled-dot-product attention abstracted into the opaque function
`sdpa` applied to the key/value prefixes returned by `update`.
Returns the step output (or the cache error) together with the cache
after the step. -/
def attnStep {α : Type} (sdpa : Chunk → Chunk → α) (c : KVCache)
    (k_state v_state : Chunk) (layer maskCols q_len : Nat) :
    Except UpdateError α × KVCache :=
  let idx := sliceIndicesOf maskCols q_len
  match update c k_state v_state layer [idx.1, idx.2] with
  | (Except.error e, c') => (Except.error e, c')
  | (Except.ok kv, c') => (Except.ok (sdpa kv.1 kv.2), c')

/-- The occupancy counter of `get_next_token` (`num_past_tokens`):
set to the prompt length right after the seeding step, then incremented
by 1 (the chunk size of an extending step) once per loop iteration.
`gntNumPast promptLen n` is its value after the seeding step and `n`
extending steps. -/
def gntNumPast (promptLen : Nat) : Nat → Nat
  | 0 => promptLen
  | n + 1 => gntNumPast promptLen n + 1

/-- Chunk sizes of the first `n + 1` steps of a session with prompt
length `promptLen`: one seeding step carrying the whole prompt, then
`n` single-token extending steps. -/
def sessionChunks (promptLen n : Nat) : List Nat :=
  promptLen :: List.replicate n 1

/-- The primitive `np.argmax` over a vector, modelled by its documented semantics:
the first index attaining the maximum (`List.maximum`).  `np.argmax`
is undefined on an empty vector; the model returns 0 there. -/
def npArgmax (xs : List Int) : Nat :=
  xs.findIdx fun x => decide (x = (xs.maximum).getD 0)

/-- The sampler `sample` in `get_next_token` (lines 25–27 of `generate.py`):
`int(np.argmax(logits[0][-1], axis=-1))` — greedy selection over the
score vector of the last position of the first batch row. -/
def sample (logits : List (List (List Int))) : Nat :=
  npArgmax (((logits.getD 0 []).getLast?).getD [])

/-- The `for`-loop body of `generate` (lines 68–71 of `generate.py`),
with the generator `get_next_token` abstracted as the stream
`stream : Nat → Int` of tokens it yields.  `i` is the current loop
index; the fuel argument bounds the recursion and is chosen so it never
runs out before the loop's own `break` (at most `maxNew + 1`
iterations, since `i = maxNew` breaks). -/
def extendLoop (stream : Nat → Int) (eos : Int) (maxNew : Nat) : Nat → Nat → List Int
  | 0, _ => []
  | fuel + 1, i =>
    if stream i = eos ∨ i = maxNew then []
    else stream i :: extendLoop stream eos maxNew fuel (i + 1)

/-- The list `extend_tokens` as returned by `generate`: run the loop from index 0
with enough fuel for every reachable iteration. -/
def extendTokens (stream : Nat → Int) (eos : Int) (maxNew : Nat) : List Int :=
  extendLoop stream eos maxNew (maxNew + 1) 0

/-! ### Basic lemmas about the torch slice-assignment model -/

lemma srcIdx_of_lt {n i : Nat} (h : i < n) : srcIdx n i = i := by
  unfold srcIdx
  split
  · omega
  · rfl

lemma bcastDim_self (n : Nat) : bcastDim n n = true := by
  simp [bcastDim]

/-- An exactly-shaped chunk always broadcasts onto its destination slice
when the slice bounds are within capacity. -/
lemma assignOk_of_shape {c : KVCache} {ch : Chunk} {b e : Nat}
    (hbe : b ≤ e) (he : e ≤ c.maxContextLength)
    (hb : ch.batch = c.batchSize) (hh : ch.heads = c.numKVHeads)
    (hp : ch.positions = e - b) (hd : ch.headDim = c.headDim) :
    assignOk c ch b e = true := by
  unfold assignOk sliceLen
  have h2 : min e c.maxContextLength - min b c.maxContextLength = e - b := by omega
  rw [hb, hh, hd, hp, min_self, h2]
  simp [bcastDim_self]

/-- Characterisation of `update` on an in-capacity, exactly-shaped call:
it succeeds, writes the key then the value chunk, and returns the two
`[0:e)` prefixes of the written buffers. -/
lemma update_ok_eq (c : KVCache) (k v : Chunk) (layer b e : Nat)
    (hL : layer < c.numLayers) (hbe : b ≤ e) (he : e ≤ c.maxContextLength)
    (hkb : k.batch = c.batchSize) (hkh : k.heads = c.numKVHeads)
    (hkp : k.positions = e - b) (hkd : k.headDim = c.headDim)
    (hvb : v.batch = c.batchSize) (hvh : v.heads = c.numKVHeads)
    (hvp : v.positions = e - b) (hvd : v.headDim = c.headDim) :
    update c k v layer [b, e] =
      (Except.ok (readPrefixK (writeV (writeK c k layer b e) v layer b e) layer e,
        readPrefixV (writeV (writeK c k layer b e) v layer b e) layer e),
        writeV (writeK c k layer b e) v layer b e) := by
  have hak : assignOk c k b e = true := assignOk_of_shape hbe he hkb hkh hkp hkd
  have hav : assignOk (writeK c k layer b e) v b e = true := by
    have hsame : assignOk (writeK c k layer b e) v b e = assignOk c v b e := rfl
    rw [hsame]
    exact assignOk_of_shape hbe he hvb hvh hvp hvd
  unfold update
  rw [if_neg (by simp)]
  simp only [List.getD_cons_zero, List.getD_cons_succ]
  rw [if_neg (by omega), if_neg (by simp [hak]), if_neg (by simp [hav])]

/-- Value of a written buffer inside the written region. -/
lemma writeBuf_in {buf : Nat → Nat → Nat → Nat → Nat → Int}
    {batchSize numKVHeads maxCtx headDim : Nat} {chunk : Chunk}
    {layer b e bb h p d : Nat}
    (hbb : bb < batchSize) (hh : h < min chunk.heads numKVHeads)
    (hlo : min b maxCtx ≤ p) (hhi : p < min e maxCtx) (hd : d < headDim) :
    writeBuf buf batchSize numKVHeads maxCtx headDim chunk layer b e layer bb h p d =
      chunk.data (srcIdx chunk.batch bb) (srcIdx chunk.heads h)
        (srcIdx chunk.positions (p - min b maxCtx)) (srcIdx chunk.headDim d) := by
  unfold writeBuf
  rw [if_pos ⟨rfl, hbb, hh, hlo, hhi, hd⟩]

/-- Value of a written buffer outside the written region: unchanged. -/
lemma writeBuf_out {buf : Nat → Nat → Nat → Nat → Nat → Int}
    {batchSize numKVHeads maxCtx headDim : Nat} {chunk : Chunk}
    {layer b e l bb h p d : Nat}
    (hout : l ≠ layer ∨ p < min b maxCtx ∨ min e maxCtx ≤ p ∨
      batchSize ≤ bb ∨ min chunk.heads numKVHeads ≤ h ∨ headDim ≤ d) :
    writeBuf buf batchSize numKVHeads maxCtx headDim chunk layer b e l bb h p d =
      buf l bb h p d := by
  unfold writeBuf
  rw [if_neg]
  rintro ⟨h1, h2, h3, h4, h5, h6⟩
  rcases hout with hx | hx | hx | hx | hx | hx
  · exact hx h1
  all_goals omega

/-- In-shape cells of a prefix read expose the buffer contents. -/
lemma readPrefixK_data {c : KVCache} {layer e bb h p d : Nat}
    (hbb : bb < c.batchSize) (hh : h < c.numKVHeads)
    (hp : p < min e c.maxContextLength) (hd : d < c.headDim) :
    (readPrefixK c layer e).data bb h p d = c.k_cache layer bb h p d := by
  show readBuf c.k_cache c.batchSize c.numKVHeads c.maxContextLength c.headDim layer e bb h p d
    = c.k_cache layer bb h p d
  unfold readBuf
  rw [if_pos ⟨hbb, hh, hp, hd⟩]

lemma readPrefixV_data {c : KVCache} {layer e bb h p d : Nat}
    (hbb : bb < c.batchSize) (hh : h < c.numKVHeads)
    (hp : p < min e c.maxContextLength) (hd : d < c.headDim) :
    (readPrefixV c layer e).data bb h p d = c.v_cache layer bb h p d := by
  show readBuf c.v_cache c.batchSize c.numKVHeads c.maxContextLength c.headDim layer e bb h p d
    = c.v_cache layer bb h p d
  unfold readBuf
  rw [if_pos ⟨hbb, hh, hp, hd⟩]

/-- Key buffer after the two writes of a successful `update`, inside the
written region: the broadcast key-chunk value. -/
lemma postUpdate_k_in (c : KVCache) (k v : Chunk) (layer b e bb h p d : Nat)
    (hkb : k.batch = c.batchSize) (hkh : k.heads = c.numKVHeads)
    (hkp : k.positions = e - b) (hkd : k.headDim = c.headDim)
    (he : e ≤ c.maxContextLength)
    (hbb : bb < c.batchSize) (hh : h < c.numKVHeads)
    (hbp : b ≤ p) (hpe : p < e) (hd : d < c.headDim) :
    (writeV (writeK c k layer b e) v layer b e).k_cache layer bb h p d =
      k.data bb h (p - b) d := by
  show writeBuf c.k_cache c.batchSize c.numKVHeads c.maxContextLength c.headDim
    k layer b e layer bb h p d = k.data bb h (p - b) d
  rw [writeBuf_in hbb (by rw [hkh, min_self]; exact hh) (by omega) (by omega) hd]
  have hminb : min b c.maxContextLength = b := by omega
  rw [hminb, srcIdx_of_lt (show bb < k.batch by omega),
    srcIdx_of_lt (show h < k.heads by omega),
    srcIdx_of_lt (show p - b < k.positions by omega),
    srcIdx_of_lt (show d < k.headDim by omega)]

/-- Value buffer after the two writes of a successful `update`, inside
the written region. -/
lemma postUpdate_v_in (c : KVCache) (k v : Chunk) (layer b e bb h p d : Nat)
    (hvb : v.batch = c.batchSize) (hvh : v.heads = c.numKVHeads)
    (hvp : v.positions = e - b) (hvd : v.headDim = c.headDim)
    (he : e ≤ c.maxContextLength)
    (hbb : bb < c.batchSize) (hh : h < c.numKVHeads)
    (hbp : b ≤ p) (hpe : p < e) (hd : d < c.headDim) :
    (writeV (writeK c k layer b e) v layer b e).v_cache layer bb h p d =
      v.data bb h (p - b) d := by
  show writeBuf c.v_cache c.batchSize c.numKVHeads c.maxContextLength c.headDim
    v layer b e layer bb h p d = v.data bb h (p - b) d
  rw [writeBuf_in hbb (by rw [hvh, min_self]; exact hh) (by omega) (by omega) hd]
  have hminb : min b c.maxContextLength = b := by omega
  rw [hminb, srcIdx_of_lt (show bb < v.batch by omega),
    srcIdx_of_lt (show h < v.heads by omega),
    srcIdx_of_lt (show p - b < v.positions by omega),
    srcIdx_of_lt (show d < v.headDim by omega)]

/-- Key buffer after the two writes of a successful `update`, outside
the written region: unchanged. -/
lemma postUpdate_k_frame (c : KVCache) (k v : Chunk) (layer b e l bb h p d : Nat)
    (hout : l ≠ layer ∨ p < min b c.maxContextLength ∨ min e c.maxContextLength ≤ p ∨
      c.batchSize ≤ bb ∨ min k.heads c.numKVHeads ≤ h ∨ c.headDim ≤ d) :
    (writeV (writeK c k layer b e) v layer b e).k_cache l bb h p d =
      c.k_cache l bb h p d := by
  show writeBuf c.k_cache c.batchSize c.numKVHeads c.maxContextLength c.headDim
    k layer b e l bb h p d = c.k_cache l bb h p d
  exact writeBuf_out hout

/-- Value buffer after the two writes of a successful `update`, outside
the written region: unchanged. -/
lemma postUpdate_v_frame (c : KVCache) (k v : Chunk) (layer b e l bb h p d : Nat)
    (hout : l ≠ layer ∨ p < min b c.maxContextLength ∨ min e c.maxContextLength ≤ p ∨
      c.batchSize ≤ bb ∨ min v.heads c.numKVHeads ≤ h ∨ c.headDim ≤ d) :
    (writeV (writeK c k layer b e) v layer b e).v_cache l bb h p d =
      c.v_cache l bb h p d := by
  show writeBuf c.v_cache c.batchSize c.numKVHeads c.maxContextLength c.headDim
    v layer b e l bb h p d = c.v_cache l bb h p d
  exact writeBuf_out hout

/-! ### Concrete instances used to exercise the theorems -/

/-- A small concrete cache: one layer, batch 1, one KV head, capacity 4,
feature size 1, zero buffers. -/
def demoCache : KVCache :=
  { numLayers := 1, batchSize := 1, numKVHeads := 1, maxContextLength := 4,
    headDim := 1, past_seen_tokens := 0,
    k_cache := fun _ _ _ _ _ => 0, v_cache := fun _ _ _ _ _ => 0 }

/-- A concrete chunk of the given position count filled with `x`. -/
def constChunk (positions : Nat) (x : Int) : Chunk :=
  { batch := 1, heads := 1, positions := positions, headDim := 1,
    data := fun _ _ _ _ => x }

/-- A capacity-1 variant of `demoCache`, for overflow calls. -/
def demoCacheCap1 : KVCache := { demoCache with maxContextLength := 1 }

/-- A variant of `demoCache` whose buffers hold nonzero (stale-looking)
data at position 1 and beyond. -/
def demoCacheStale : KVCache :=
  { demoCache with
    k_cache := fun _ _ _ p _ => if 1 ≤ p then 99 else 0,
    v_cache := fun _ _ _ p _ => if 1 ≤ p then 77 else 0 }

/-! ### Claim theorems -/

/-- C10: `update` called with a `slice_indices` argument that does not
contain exactly two elements raises `ValueError`, and the check happens
before any write: both buffers and the occupancy counter are returned
exactly as they were before the call. -/
theorem C10_bad_slice_indices_value_error (c : KVCache) (k v : Chunk)
    (layer : Nat) (idxs : List Nat) (h : idxs.length ≠ 2) :
    update c k v layer idxs = (Except.error UpdateError.valueError, c) := by
  unfold update
  rw [if_pos h]

theorem C10_bad_slice_indices_witness :
    ([0, 1, 2] : List Nat).length ≠ 2 ∧
      update demoCache (constChunk 1 5) (constChunk 1 5) 0 [0, 1, 2] =
        (Except.error UpdateError.valueError, demoCache) :=
  ⟨by decide,
    C10_bad_slice_indices_value_error demoCache (constChunk 1 5) (constChunk 1 5) 0
      [0, 1, 2] (by decide)⟩

/-- C4: with `0 ≤ b ≤ e ≤ maxContextLength` and exactly-shaped chunks of
position count `e - b`, `update` succeeds and returns precisely the
`[0:e)` prefixes of the post-state buffers; reading that prefix yields
the written chunks at positions `[b, e)` and the pre-update buffer
contents, unchanged, at positions `[0, b)`. -/
theorem C4_update_then_read (c : KVCache) (k v : Chunk) (layer b e : Nat)
    (hL : layer < c.numLayers) (hbe : b ≤ e) (he : e ≤ c.maxContextLength)
    (hkb : k.batch = c.batchSize) (hkh : k.heads = c.numKVHeads)
    (hkp : k.positions = e - b) (hkd : k.headDim = c.headDim)
    (hvb : v.batch = c.batchSize) (hvh : v.heads = c.numKVHeads)
    (hvp : v.positions = e - b) (hvd : v.headDim = c.headDim) :
    (update c k v layer [b, e]).1 =
      Except.ok (readPrefixK (update c k v layer [b, e]).2 layer e,
        readPrefixV (update c k v layer [b, e]).2 layer e) ∧
    (∀ bb h p d, bb < c.batchSize → h < c.numKVHeads → d < c.headDim →
      b ≤ p → p < e →
      (readPrefixK (update c k v layer [b, e]).2 layer e).data bb h p d =
          k.data bb h (p - b) d ∧
        (readPrefixV (update c k v layer [b, e]).2 layer e).data bb h p d =
          v.data bb h (p - b) d) ∧
    (∀ bb h p d, bb < c.batchSize → h < c.numKVHeads → d < c.headDim →
      p < b →
      (readPrefixK (update c k v layer [b, e]).2 layer e).data bb h p d =
          c.k_cache layer bb h p d ∧
        (readPrefixV (update c k v layer [b, e]).2 layer e).data bb h p d =
          c.v_cache layer bb h p d) := by
  rw [update_ok_eq c k v layer b e hL hbe he hkb hkh hkp hkd hvb hvh hvp hvd]
  refine ⟨rfl, ?_, ?_⟩
  · intro bb h p d hbb hh hd hbp hpe
    constructor
    · exact (readPrefixK_data (c := writeV (writeK c k layer b e) v layer b e) hbb hh
        (show p < min e c.maxContextLength by omega) hd).trans
        (postUpdate_k_in c k v layer b e bb h p d hkb hkh hkp hkd he hbb hh hbp hpe hd)
    · exact (readPrefixV_data (c := writeV (writeK c k layer b e) v layer b e) hbb hh
        (show p < min e c.maxContextLength by omega) hd).trans
        (postUpdate_v_in c k v layer b e bb h p d hvb hvh hvp hvd he hbb hh hbp hpe hd)
  · intro bb h p d hbb hh hd hpb
    constructor
    · exact (readPrefixK_data (c := writeV (writeK c k layer b e) v layer b e) hbb hh
        (show p < min e c.maxContextLength by omega) hd).trans
        (postUpdate_k_frame c k v layer b e layer bb h p d (Or.inr (Or.inl (by omega))))
    · exact (readPrefixV_data (c := writeV (writeK c k layer b e) v layer b e) hbb hh
        (show p < min e c.maxContextLength by omega) hd).trans
        (postUpdate_v_frame c k v layer b e layer bb h p d (Or.inr (Or.inl (by omega))))

theorem C4_update_then_read_witness :
    (readPrefixK (update demoCacheStale (constChunk 2 5) (constChunk 2 7) 0 [1, 3]).2 0 3).data
        0 0 2 0 = 5 ∧
      (readPrefixV (update demoCacheStale (constChunk 2 5) (constChunk 2 7) 0 [1, 3]).2 0 3).data
        0 0 1 0 = 7 ∧
      (readPrefixK (update demoCacheStale (constChunk 2 5) (constChunk 2 7) 0 [1, 3]).2 0 3).data
        0 0 0 0 = demoCacheStale.k_cache 0 0 0 0 0 := by
  have h := C4_update_then_read demoCacheStale (constChunk 2 5) (constChunk 2 7) 0 1 3
    (by decide) (by decide) (by decide) (by decide) (by decide) (by decide) (by decide)
    (by decide) (by decide) (by decide) (by decide)
  exact ⟨(h.2.1 0 0 2 0 (by decide) (by decide) (by decide) (by decide) (by decide)).1,
    (h.2.1 0 0 1 0 (by decide) (by decide) (by decide) (by decide) (by decide)).2,
    (h.2.2 0 0 0 0 (by decide) (by decide) (by decide) (by decide)).1⟩

/-- Closed form of the driver's occupancy counter. -/
lemma gntNumPast_eq (promptLen n : Nat) : gntNumPast promptLen n = promptLen + n := by
  induction n with
  | zero => rfl
  | succ n ih =>
    show gntNumPast promptLen n + 1 = promptLen + (n + 1)
    omega

/-- Sum of the chunk sizes of the first `n + 1` steps. -/
lemma sessionChunks_sum (promptLen n : Nat) :
    (sessionChunks promptLen n).sum = promptLen + n := by
  simp [sessionChunks, List.sum_replicate, smul_eq_mul]

/-- C1: the slice bounds derived through the mask → forward → attention
pipeline for a step with prior occupancy `p` and `q` new tokens are
exactly `[p, p + q)`; a successful `update` with those bounds writes
exactly that position range of the given layer in both buffers (all
other cells and the occupancy counter are untouched); and the driver's
occupancy counter (`num_past_tokens` of `get_next_token`) advances by
the chunk size each step, so after the seeding step and `n` extending
steps it equals the sum of all new-token counts processed so far. -/
theorem C1_write_range_and_occupancy (p q : Nat) (c : KVCache) (k v : Chunk)
    (layer promptLen n : Nat)
    (hL : layer < c.numLayers) (he : p + q ≤ c.maxContextLength)
    (hkb : k.batch = c.batchSize) (hkh : k.heads = c.numKVHeads)
    (hkp : k.positions = q) (hkd : k.headDim = c.headDim)
    (hvb : v.batch = c.batchSize) (hvh : v.heads = c.numKVHeads)
    (hvp : v.positions = q) (hvd : v.headDim = c.headDim) :
    sliceIndicesOf (inferenceMaskCols p q) q = (p, p + q) ∧
    pastSeenOf (inferenceMaskCols p q) q = p ∧
    (∀ l bb h pos d, l ≠ layer ∨ pos < p ∨ p + q ≤ pos →
      (update c k v layer [p, p + q]).2.k_cache l bb h pos d = c.k_cache l bb h pos d ∧
      (update c k v layer [p, p + q]).2.v_cache l bb h pos d = c.v_cache l bb h pos d) ∧
    (∀ bb h pos d, bb < c.batchSize → h < c.numKVHeads → d < c.headDim →
      p ≤ pos → pos < p + q →
      (update c k v layer [p, p + q]).2.k_cache layer bb h pos d = k.data bb h (pos - p) d ∧
      (update c k v layer [p, p + q]).2.v_cache layer bb h pos d = v.data bb h (pos - p) d) ∧
    (update c k v layer [p, p + q]).2.past_seen_tokens = c.past_seen_tokens ∧
    gntNumPast promptLen 0 = 0 + promptLen ∧
    gntNumPast promptLen (n + 1) = gntNumPast promptLen n + 1 ∧
    gntNumPast promptLen n = (sessionChunks promptLen n).sum := by
  have hu := update_ok_eq c k v layer p (p + q) hL (by omega) he hkb hkh (by omega) hkd
    hvb hvh (by omega) hvd
  refine ⟨by simp [sliceIndicesOf, inferenceMaskCols],
    by simp [pastSeenOf, inferenceMaskCols], ?_, ?_, ?_, by simp [gntNumPast], rfl, ?_⟩
  · intro l bb h pos d hout
    rw [hu]
    have houtK : l ≠ layer ∨ pos < min p c.maxContextLength ∨
        min (p + q) c.maxContextLength ≤ pos ∨ c.batchSize ≤ bb ∨
        min k.heads c.numKVHeads ≤ h ∨ c.headDim ≤ d := by
      rcases hout with hx | hx | hx
      · exact Or.inl hx
      · exact Or.inr (Or.inl (by omega))
      · exact Or.inr (Or.inr (Or.inl (by omega)))
    have houtV : l ≠ layer ∨ pos < min p c.maxContextLength ∨
        min (p + q) c.maxContextLength ≤ pos ∨ c.batchSize ≤ bb ∨
        min v.heads c.numKVHeads ≤ h ∨ c.headDim ≤ d := by
      rcases hout with hx | hx | hx
      · exact Or.inl hx
      · exact Or.inr (Or.inl (by omega))
      · exact Or.inr (Or.inr (Or.inl (by omega)))
    exact ⟨postUpdate_k_frame c k v layer p (p + q) l bb h pos d houtK,
      postUpdate_v_frame c k v layer p (p + q) l bb h pos d houtV⟩
  · intro bb h pos d hbb hh hd hbp hpe
    rw [hu]
    exact ⟨postUpdate_k_in c k v layer p (p + q) bb h pos d hkb hkh (by omega) hkd he
        hbb hh hbp hpe hd,
      postUpdate_v_in c k v layer p (p + q) bb h pos d hvb hvh (by omega) hvd he
        hbb hh hbp hpe hd⟩
  · rw [hu]
    rfl
  · rw [gntNumPast_eq, sessionChunks_sum]

theorem C1_write_range_and_occupancy_witness :
    sliceIndicesOf (inferenceMaskCols 1 2) 2 = (1, 3) ∧
      (update demoCache (constChunk 2 5) (constChunk 2 7) 0 [1, 3]).2.k_cache 0 0 0 0 0 =
        demoCache.k_cache 0 0 0 0 0 ∧
      (update demoCache (constChunk 2 5) (constChunk 2 7) 0 [1, 3]).2.k_cache 0 0 0 2 0 = 5 ∧
      gntNumPast 3 2 = (sessionChunks 3 2).sum := by
  have h := C1_write_range_and_occupancy 1 2 demoCache (constChunk 2 5) (constChunk 2 7) 0 3 2
    (by decide) (by decide) (by decide) (by decide) (by decide) (by decide)
    (by decide) (by decide) (by decide) (by decide)
  exact ⟨h.1, (h.2.2.1 0 0 0 0 0 (Or.inr (Or.inl (by decide)))).1,
    (h.2.2.2.1 0 0 2 0 (by decide) (by decide) (by decide) (by decide) (by decide)).1,
    h.2.2.2.2.2.2.2⟩

/-- With positive prior occupancy the fill value is `0`, so every mask
entry is `0` whatever `np.triu` keeps. -/
lemma buildMask_entry_of_pos {p : Nat} (hp : 0 < p) (q i j : Nat) :
    (buildMask p q).entry i j = 0 := by
  have hf : maskFill p = 0 := by
    unfold maskFill
    rw [if_neg (by omega)]
  show (if i + 1 ≤ j then maskFill p else 0) = 0
  rw [hf]
  exact ite_self 0

/-- C2 counterexample: the claim demands that, for
`occupancyBefore = 1` and `newTokenCount = 2`, the entry at row 0 and
global column 2 (a future position, since `2 > occupancyBefore + 0`)
be a large negative value; the mask the code builds has fill value `0`
on every step with `num_past_tokens > 0`, so that entry is the additive
`0` (permitted). -/
theorem C2_counterexample :
    1 + 2 ≤ demoCache.maxContextLength ∧
      (buildMask 1 2).entry 0 2 = 0 ∧ 1 + 0 < 2 := by
  refine ⟨by decide, rfl, by decide⟩

/-- C2 (amended): the mask has shape
`(newTokenCount, occupancyBefore + newTokenCount)`.  On the seeding step
(`occupancyBefore = 0`) an entry is permitted (additive `0`) iff its
global column index is at most the row index, and is `-inf` otherwise.
On every later step (`occupancyBefore > 0`) the mask is identically `0`
— all positions permitted — which coincides with the claimed causal
semantics exactly in the single-token case `newTokenCount = 1`, the
only case the decoding driver issues with positive occupancy. -/
theorem C2_mask_shape_and_semantics (p q : Nat) :
    (buildMask p q).rows = q ∧ (buildMask p q).cols = p + q ∧
    (p = 0 → ∀ i j, i < q → j < p + q →
      ((buildMask p q).entry i j = 0 ↔ j ≤ p + i) ∧
      (p + i < j → (buildMask p q).entry i j = ⊥)) ∧
    (0 < p → ∀ i j, (buildMask p q).entry i j = 0) ∧
    (0 < p → q = 1 → ∀ i j, i < q → j < p + q →
      ((buildMask p q).entry i j = 0 ↔ j ≤ p + i)) := by
  refine ⟨rfl, rfl, ?_, ?_, ?_⟩
  · rintro rfl i j hi hj
    have hent : (buildMask 0 q).entry i j = if i + 1 ≤ j then (⊥ : WithBot Int) else 0 := rfl
    constructor
    · by_cases hij : i + 1 ≤ j
      · rw [hent, if_pos hij]
        exact ⟨fun hc => absurd hc (by decide), fun hc => absurd hc (by omega)⟩
      · rw [hent, if_neg hij]
        exact ⟨fun _ => by omega, fun _ => rfl⟩
    · intro hfut
      rw [hent, if_pos (by omega)]
  · intro hp i j
    exact buildMask_entry_of_pos hp q i j
  · rintro hp rfl i j hi hj
    exact ⟨fun _ => by omega, fun _ => buildMask_entry_of_pos hp 1 i j⟩

theorem C2_mask_shape_and_semantics_witness :
    ((buildMask 0 2).entry 1 0 = 0 ↔ 0 ≤ 0 + 1) ∧
      ((buildMask 2 1).entry 0 1 = 0 ↔ 1 ≤ 2 + 0) ∧
      (buildMask 0 2).entry 0 1 = ⊥ := by
  have h0 := C2_mask_shape_and_semantics 0 2
  have h2 := C2_mask_shape_and_semantics 2 1
  exact ⟨(h0.2.2.1 rfl 1 0 (by decide) (by decide)).1,
    h2.2.2.2.2 (by decide) rfl 0 1 (by decide) (by decide),
    (h0.2.2.1 rfl 0 1 (by decide) (by decide)).2 (by decide)⟩

/-- C7 counterexample: the claim demands construction fail with
`InvalidShapeError` whenever a dimension is `≤ 0`, but
`torch.zeros` accepts zero-sized dimensions: constructing with
`maxContextLength = 0` succeeds (an empty, zero-filled cache with
occupancy 0), so no error of any kind is raised. -/
theorem C7_counterexample :
    ((0 : Int) ≤ 0) ∧ (initCache 1 1 1 0 1).isOk = true := by
  constructor
  · decide
  · rfl

/-- C7 (amended): construction allocates both buffers with shape
`(numLayers, batchSize, numKVHeads, maxContextLength, headDim)`,
zero-fills them and sets occupancy to 0 whenever every dimension is
nonnegative — zero-sized dimensions included, for which no check exists
and no error is raised; construction fails (torch `RuntimeError`, there
is no dedicated `InvalidShapeError`) exactly when some dimension is
negative. -/
theorem C7_init_allocates_or_rejects (nl bs nh mc hd : Int) :
    (0 ≤ nl → 0 ≤ bs → 0 ≤ nh → 0 ≤ mc → 0 ≤ hd →
      initCache nl bs nh mc hd =
        Except.ok
          { numLayers := nl.toNat, batchSize := bs.toNat, numKVHeads := nh.toNat,
            maxContextLength := mc.toNat, headDim := hd.toNat, past_seen_tokens := 0,
            k_cache := fun _ _ _ _ _ => 0, v_cache := fun _ _ _ _ _ => 0 }) ∧
    ((nl < 0 ∨ bs < 0 ∨ nh < 0 ∨ mc < 0 ∨ hd < 0) →
      initCache nl bs nh mc hd = Except.error InitError.negativeDim) := by
  constructor
  · intro h1 h2 h3 h4 h5
    unfold initCache
    rw [if_neg (by omega)]
  · intro h
    unfold initCache
    rw [if_pos h]

theorem C7_init_allocates_or_rejects_witness :
    initCache 2 1 1 8 1 =
        Except.ok
          { numLayers := 2, batchSize := 1, numKVHeads := 1,
            maxContextLength := 8, headDim := 1, past_seen_tokens := 0,
            k_cache := fun _ _ _ _ _ => 0, v_cache := fun _ _ _ _ _ => 0 } ∧
      initCache (-1) 1 1 8 1 = Except.error InitError.negativeDim :=
  ⟨(C7_init_allocates_or_rejects 2 1 1 8 1).1 (by decide) (by decide) (by decide)
      (by decide) (by decide),
    (C7_init_allocates_or_rejects (-1) 1 1 8 1).2 (Or.inl (by decide))⟩

/-- C9: the mask-construction phase of `inference` is a pure function of
the two integers `num_past_tokens` and the input length: it leaves the
cache untouched, and two invocations with equal integer arguments —
whatever the cache contents — produce the identical mask, namely
`buildMask num_past inputLen`. -/
theorem C9_mask_construction_pure (c1 c2 : KVCache) (num_past inputLen : Nat) :
    (inferenceMask c1 num_past inputLen).1 = (inferenceMask c2 num_past inputLen).1 ∧
      (inferenceMask c1 num_past inputLen).2 = c1 ∧
      (inferenceMask c1 num_past inputLen).1 = buildMask num_past inputLen :=
  ⟨rfl, rfl, rfl⟩

/-- Behaviour of the `generate` loop from index `i` with exactly enough
fuel: the collected tokens are the stream values from `i` on, none of
them is the stop token, at most `maxNew - i` are collected, and
stopping short of that bound can only be caused by the stop token. -/
lemma extendLoop_spec (stream : Nat → Int) (eos : Int) (maxNew : Nat) :
    ∀ fuel i, maxNew + 1 = i + fuel →
      (extendLoop stream eos maxNew fuel i).length ≤ maxNew - i ∧
      (∀ j, j < (extendLoop stream eos maxNew fuel i).length →
        (extendLoop stream eos maxNew fuel i).getD j 0 = stream (i + j) ∧
          stream (i + j) ≠ eos) ∧
      ((extendLoop stream eos maxNew fuel i).length < maxNew - i →
        stream (i + (extendLoop stream eos maxNew fuel i).length) = eos) := by
  intro fuel
  induction fuel with
  | zero =>
    intro i hi
    refine ⟨Nat.zero_le _, ?_, ?_⟩
    · intro j hj
      simp [extendLoop] at hj
    · intro hlen
      simp only [extendLoop, List.length_nil] at hlen
      omega
  | succ fuel ih =>
    intro i hi
    by_cases hstop : stream i = eos ∨ i = maxNew
    · have hll : extendLoop stream eos maxNew (fuel + 1) i = [] := by
        rw [extendLoop, if_pos hstop]
      rw [hll]
      refine ⟨Nat.zero_le _, ?_, ?_⟩
      · intro j hj
        simp at hj
      · intro hlen
        simp only [List.length_nil] at hlen
        rcases hstop with hx | hx
        · simpa using hx
        · omega
    · push_neg at hstop
      have hll : extendLoop stream eos maxNew (fuel + 1) i =
          stream i :: extendLoop stream eos maxNew fuel (i + 1) := by
        rw [extendLoop, if_neg (by tauto)]
      obtain ⟨ih1, ih2, ih3⟩ := ih (i + 1) (by omega)
      rw [hll]
      refine ⟨?_, ?_, ?_⟩
      · simp only [List.length_cons]
        omega
      · intro j hj
        cases j with
        | zero =>
          refine ⟨by simp, ?_⟩
          have hz : i + 0 = i := rfl
          rw [hz]
          exact hstop.1
        | succ jj =>
          simp only [List.length_cons] at hj
          have hjj := ih2 jj (by omega)
          have harith : i + 1 + jj = i + (jj + 1) := by omega
          rw [harith] at hjj
          refine ⟨?_, hjj.2⟩
          simpa [List.getD_cons_succ] using hjj.1
      · intro hlen
        simp only [List.length_cons] at hlen ⊢
        have hrec := ih3 (by omega)
        have harith : i + 1 + (extendLoop stream eos maxNew fuel (i + 1)).length =
            i + ((extendLoop stream eos maxNew fuel (i + 1)).length + 1) := by omega
        rw [harith] at hrec
        exact hrec

/-- C6: the token list returned by `generate` never exceeds
`maxNewTokens` elements; every returned token is the corresponding
stream value and differs from the stop token (so a produced stop token
is excluded from the output and halts the loop immediately); and a halt
before the `maxNewTokens` cap can only be caused by the stop token —
reaching the cap keeps every token produced up to the limit. -/
theorem C6_generate_halting (stream : Nat → Int) (eos : Int) (maxNew : Nat) :
    (extendTokens stream eos maxNew).length ≤ maxNew ∧
    (∀ j, j < (extendTokens stream eos maxNew).length →
      (extendTokens stream eos maxNew).getD j 0 = stream j ∧ stream j ≠ eos) ∧
    ((extendTokens stream eos maxNew).length < maxNew →
      stream ((extendTokens stream eos maxNew).length) = eos) := by
  obtain ⟨h1, h2, h3⟩ := extendLoop_spec stream eos maxNew (maxNew + 1) 0 (by omega)
  refine ⟨by simpa using h1, ?_, by simpa using h3⟩
  intro j hj
  simpa using h2 j hj

/-- A concrete token stream: 0, 1, 9, 3, 4, … with stop token 9 at
index 2. -/
def demoStream : Nat → Int := fun i => if i = 2 then 9 else (i : Int)

theorem C6_generate_halting_witness :
    (extendTokens demoStream 9 5).length ≤ 5 ∧
      (extendTokens demoStream 9 5).getD 0 0 = demoStream 0 ∧
      demoStream 0 ≠ 9 ∧
      ((extendTokens demoStream 9 5).length < 5 →
        demoStream ((extendTokens demoStream 9 5).length) = 9) := by
  have h := C6_generate_halting demoStream 9 5
  have h0 := h.2.1 0 (by decide)
  exact ⟨h.1, h0.1, h0.2, h.2.2⟩

/-- First-maximum characterisation of the `np.argmax` model: the result
indexes the list, its value dominates every entry, and every earlier
entry is strictly smaller (lowest index among the maxima). -/
lemma npArgmax_spec (xs : List Int) (hne : xs ≠ []) :
    npArgmax xs < xs.length ∧
    (∀ j, j < xs.length → xs.getD j 0 ≤ xs.getD (npArgmax xs) 0) ∧
    (∀ j, j < npArgmax xs → xs.getD j 0 < xs.getD (npArgmax xs) 0) := by
  obtain ⟨m, hm⟩ : ∃ m : Int, xs.maximum = (m : WithBot Int) := by
    have hbot := List.maximum_ne_bot_of_ne_nil hne
    rcases hx : xs.maximum with _ | m
    · exact absurd hx hbot
    · exact ⟨m, rfl⟩
  have hmD : (xs.maximum).getD 0 = m := by rw [hm]; rfl
  have hidx : npArgmax xs = xs.findIdx fun x => decide (x = m) := by
    unfold npArgmax
    simp only [hmD]
  have hmem : m ∈ xs := List.maximum_mem hm
  have hlt : xs.findIdx (fun x => decide (x = m)) < xs.length :=
    List.findIdx_lt_length_of_exists ⟨m, hmem, by simp⟩
  have hval : xs.getD (xs.findIdx fun x => decide (x = m)) 0 = m := by
    rw [List.getD_eq_getElem xs 0 hlt]
    have := @List.findIdx_getElem _ (fun x => decide (x = m)) xs hlt
    simpa using this
  refine ⟨by rw [hidx]; exact hlt, ?_, ?_⟩
  · intro j hj
    rw [hidx, hval, List.getD_eq_getElem xs 0 hj]
    exact List.le_maximum_of_mem (List.getElem_mem hj) hm
  · intro j hj
    rw [hidx] at hj
    have hjlen : j < xs.length := lt_trans hj hlt
    have hne2 : xs[j] ≠ m := by
      have := List.not_of_lt_findIdx hj
      simpa using this
    have hle : xs[j] ≤ m := List.le_maximum_of_mem (List.getElem_mem hjlen) hm
    rw [hidx, hval, List.getD_eq_getElem xs 0 hjlen]
    omega

/-- C8: the default greedy policy selects, from the score vector of the
last position (`logits[0][-1]`), the index of the maximum value; when
several indices attain the maximum the lowest index is chosen, so
selection is deterministic. -/
theorem C8_greedy_selects_first_max (logits : List (List (List Int)))
    (hne : ((logits.getD 0 []).getLast?).getD [] ≠ []) :
    sample logits < (((logits.getD 0 []).getLast?).getD []).length ∧
    (∀ j, j < (((logits.getD 0 []).getLast?).getD []).length →
      (((logits.getD 0 []).getLast?).getD []).getD j 0 ≤
        (((logits.getD 0 []).getLast?).getD []).getD (sample logits) 0) ∧
    (∀ j, j < sample logits →
      (((logits.getD 0 []).getLast?).getD []).getD j 0 <
        (((logits.getD 0 []).getLast?).getD []).getD (sample logits) 0) :=
  npArgmax_spec (((logits.getD 0 []).getLast?).getD []) hne

theorem C8_greedy_selects_first_max_witness :
    ([3, 9, 9, 4] : List Int).getD 0 0 <
        ([3, 9, 9, 4] : List Int).getD (sample [[[1, 2], [3, 9, 9, 4]]]) 0 ∧
      sample [[[1, 2], [3, 9, 9, 4]]] < ([3, 9, 9, 4] : List Int).length ∧
      ([3, 9, 9, 4] : List Int).getD 2 0 ≤
        ([3, 9, 9, 4] : List Int).getD (sample [[[1, 2], [3, 9, 9, 4]]]) 0 := by
  have h := C8_greedy_selects_first_max [[[1, 2], [3, 9, 9, 4]]] (by decide)
  exact ⟨h.2.2 0 (by decide), h.1, h.2.1 2 (by decide)⟩

/-- C3 counterexample: the claim demands every `update` whose
`rangeEnd` exceeds `maxContextLength` fail.  On a capacity-1 cache, the
overflowing call with `rangeBegin = 1`, `rangeEnd = 2` and a
single-position chunk clamps to an empty destination slice, the chunk
broadcasts onto it, and the call succeeds (no error of any kind). -/
theorem C3_counterexample :
    demoCacheCap1.maxContextLength < 2 ∧
      (update demoCacheCap1 (constChunk 1 5) (constChunk 1 5) 0 [1, 2]).1.isOk = true := by
  constructor
  · decide
  · rfl

/-- C3 (amended): an `update` whose `rangeEnd` exceeds
`maxContextLength` (with exactly-shaped chunks of position count
`rangeEnd - rangeBegin`) never writes any buffer cell and never touches
the occupancy counter, but there is no dedicated `CacheOverflowError`
check.  When `rangeBegin` lies below capacity — every overflow an
in-order decoding session can produce — the chunk does not fit the
clamped destination slice and the call fails with torch's
shape-mismatch error, cache unchanged; likewise for
`rangeBegin ≥ maxContextLength` with a chunk of two or more positions.
With `rangeBegin ≥ maxContextLength` and at most one position, however,
the chunk broadcasts onto the empty clamped slice and the call silently
succeeds, writing nothing. -/
theorem C3_overflow_behaviour (c : KVCache) (k v : Chunk) (layer b e : Nat)
    (hL : layer < c.numLayers) (hover : c.maxContextLength < e)
    (hkb : k.batch = c.batchSize) (hkh : k.heads = c.numKVHeads)
    (hkp : k.positions = e - b) (hkd : k.headDim = c.headDim)
    (hvb : v.batch = c.batchSize) (hvh : v.heads = c.numKVHeads)
    (hvp : v.positions = e - b) (hvd : v.headDim = c.headDim) :
    (b < c.maxContextLength →
      update c k v layer [b, e] = (Except.error UpdateError.shapeMismatch, c)) ∧
    (c.maxContextLength ≤ b → 2 ≤ e - b →
      update c k v layer [b, e] = (Except.error UpdateError.shapeMismatch, c)) ∧
    (c.maxContextLength ≤ b → e - b ≤ 1 →
      (update c k v layer [b, e]).1.isOk = true ∧
      (∀ l bb h pos d,
        (update c k v layer [b, e]).2.k_cache l bb h pos d = c.k_cache l bb h pos d ∧
        (update c k v layer [b, e]).2.v_cache l bb h pos d = c.v_cache l bb h pos d) ∧
      (update c k v layer [b, e]).2.past_seen_tokens = c.past_seen_tokens) := by
  refine ⟨?_, ?_, ?_⟩
  · intro hb
    have hns : ¬ (assignOk c k b e = true) := by
      unfold assignOk bcastDim sliceLen
      intro hcontra
      simp only [Bool.and_eq_true, Bool.or_eq_true, beq_iff_eq] at hcontra
      omega
    unfold update
    rw [if_neg (by simp)]
    simp only [List.getD_cons_zero, List.getD_cons_succ]
    rw [if_neg (by omega), if_pos hns]
  · intro hb h2
    have hns : ¬ (assignOk c k b e = true) := by
      unfold assignOk bcastDim sliceLen
      intro hcontra
      simp only [Bool.and_eq_true, Bool.or_eq_true, beq_iff_eq] at hcontra
      omega
    unfold update
    rw [if_neg (by simp)]
    simp only [List.getD_cons_zero, List.getD_cons_succ]
    rw [if_neg (by omega), if_pos hns]
  · intro hb h1
    have hak : assignOk c k b e = true := by
      unfold assignOk bcastDim sliceLen
      simp only [Bool.and_eq_true, Bool.or_eq_true, beq_iff_eq]
      omega
    have hav : assignOk (writeK c k layer b e) v b e = true := by
      show assignOk c v b e = true
      unfold assignOk bcastDim sliceLen
      simp only [Bool.and_eq_true, Bool.or_eq_true, beq_iff_eq]
      omega
    have hupd : update c k v layer [b, e] =
        (Except.ok (readPrefixK (writeV (writeK c k layer b e) v layer b e) layer e,
          readPrefixV (writeV (writeK c k layer b e) v layer b e) layer e),
          writeV (writeK c k layer b e) v layer b e) := by
      unfold update
      rw [if_neg (by simp)]
      simp only [List.getD_cons_zero, List.getD_cons_succ]
      rw [if_neg (by omega), if_neg (by simp [hak]), if_neg (by simp [hav])]
    refine ⟨by rw [hupd]; rfl, ?_, by rw [hupd]; rfl⟩
    intro l bb h pos d
    rw [hupd]
    constructor
    · rcases Nat.lt_or_ge pos c.maxContextLength with hp | hp
      · exact postUpdate_k_frame c k v layer b e l bb h pos d (Or.inr (Or.inl (by omega)))
      · exact postUpdate_k_frame c k v layer b e l bb h pos d
          (Or.inr (Or.inr (Or.inl (by omega))))
    · rcases Nat.lt_or_ge pos c.maxContextLength with hp | hp
      · exact postUpdate_v_frame c k v layer b e l bb h pos d (Or.inr (Or.inl (by omega)))
      · exact postUpdate_v_frame c k v layer b e l bb h pos d
          (Or.inr (Or.inr (Or.inl (by omega))))

theorem C3_overflow_behaviour_witness :
    update demoCacheCap1 (constChunk 2 5) (constChunk 2 7) 0 [0, 2] =
        (Except.error UpdateError.shapeMismatch, demoCacheCap1) ∧
      (update demoCacheCap1 (constChunk 1 5) (constChunk 1 7) 0 [1, 2]).1.isOk = true ∧
      (update demoCacheCap1 (constChunk 1 5) (constChunk 1 7) 0 [1, 2]).2.k_cache 0 0 0 0 0 =
        demoCacheCap1.k_cache 0 0 0 0 0 := by
  have h1 := C3_overflow_behaviour demoCacheCap1 (constChunk 2 5) (constChunk 2 7) 0 0 2
    (by decide) (by decide) (by decide) (by decide) (by decide) (by decide)
    (by decide) (by decide) (by decide) (by decide)
  have h2 := C3_overflow_behaviour demoCacheCap1 (constChunk 1 5) (constChunk 1 7) 0 1 2
    (by decide) (by decide) (by decide) (by decide) (by decide) (by decide)
    (by decide) (by decide) (by decide) (by decide)
  exact ⟨h1.1 (by decide), (h2.2.2 (by decide) (by decide)).1,
    ((h2.2.2 (by decide) (by decide)).2.1 0 0 0 0 0).1⟩

/-- The broadcast check depends only on the cache's shape fields. -/
lemma assignOk_congr (c1 c2 : KVCache) (ch : Chunk) (b e : Nat)
    (hB : c1.batchSize = c2.batchSize) (hH : c1.numKVHeads = c2.numKVHeads)
    (hM : c1.maxContextLength = c2.maxContextLength) (hD : c1.headDim = c2.headDim) :
    assignOk c1 ch b e = assignOk c2 ch b e := by
  unfold assignOk sliceLen
  rw [hB, hH, hM, hD]

/-- The key prefix returned after the two writes of an `update` depends
only on the cache's shape fields and on its key-buffer contents at
positions below `e` (in the written layer). -/
lemma readPrefixK_post_congr (c1 c2 : KVCache) (k v : Chunk) (layer b e : Nat)
    (hB : c1.batchSize = c2.batchSize) (hH : c1.numKVHeads = c2.numKVHeads)
    (hM : c1.maxContextLength = c2.maxContextLength) (hD : c1.headDim = c2.headDim)
    (hk : ∀ bb h pos d, pos < e → c1.k_cache layer bb h pos d = c2.k_cache layer bb h pos d) :
    readPrefixK (writeV (writeK c1 k layer b e) v layer b e) layer e =
      readPrefixK (writeV (writeK c2 k layer b e) v layer b e) layer e := by
  have hdata :
      readBuf (writeBuf c1.k_cache c1.batchSize c1.numKVHeads c1.maxContextLength
          c1.headDim k layer b e) c1.batchSize c1.numKVHeads c1.maxContextLength
          c1.headDim layer e =
        readBuf (writeBuf c2.k_cache c2.batchSize c2.numKVHeads c2.maxContextLength
          c2.headDim k layer b e) c2.batchSize c2.numKVHeads c2.maxContextLength
          c2.headDim layer e := by
    funext bb h p d
    unfold readBuf writeBuf
    rw [hB, hH, hM, hD]
    by_cases hcond : bb < c2.batchSize ∧ h < c2.numKVHeads ∧
        p < min e c2.maxContextLength ∧ d < c2.headDim
    · rw [if_pos hcond, if_pos hcond]
      by_cases hw : layer = layer ∧ bb < c2.batchSize ∧ h < min k.heads c2.numKVHeads ∧
          min b c2.maxContextLength ≤ p ∧ p < min e c2.maxContextLength ∧ d < c2.headDim
      · rw [if_pos hw, if_pos hw]
      · rw [if_neg hw, if_neg hw]
        exact hk bb h p d (by omega)
    · rw [if_neg hcond, if_neg hcond]
  show Chunk.mk c1.batchSize c1.numKVHeads (min e c1.maxContextLength) c1.headDim _ =
    Chunk.mk c2.batchSize c2.numKVHeads (min e c2.maxContextLength) c2.headDim _
  rw [hB, hH, hM, hD]
  exact congrArg _ hdata

/-- The value prefix returned after the two writes of an `update`
depends only on the cache's shape fields and on its value-buffer
contents at positions below `e` (in the written layer). -/
lemma readPrefixV_post_congr (c1 c2 : KVCache) (k v : Chunk) (layer b e : Nat)
    (hB : c1.batchSize = c2.batchSize) (hH : c1.numKVHeads = c2.numKVHeads)
    (hM : c1.maxContextLength = c2.maxContextLength) (hD : c1.headDim = c2.headDim)
    (hv : ∀ bb h pos d, pos < e → c1.v_cache layer bb h pos d = c2.v_cache layer bb h pos d) :
    readPrefixV (writeV (writeK c1 k layer b e) v layer b e) layer e =
      readPrefixV (writeV (writeK c2 k layer b e) v layer b e) layer e := by
  have hdata :
      readBuf (writeBuf c1.v_cache c1.batchSize c1.numKVHeads c1.maxContextLength
          c1.headDim v layer b e) c1.batchSize c1.numKVHeads c1.maxContextLength
          c1.headDim layer e =
        readBuf (writeBuf c2.v_cache c2.batchSize c2.numKVHeads c2.maxContextLength
          c2.headDim v layer b e) c2.batchSize c2.numKVHeads c2.maxContextLength
          c2.headDim layer e := by
    funext bb h p d
    unfold readBuf writeBuf
    rw [hB, hH, hM, hD]
    by_cases hcond : bb < c2.batchSize ∧ h < c2.numKVHeads ∧
        p < min e c2.maxContextLength ∧ d < c2.headDim
    · rw [if_pos hcond, if_pos hcond]
      by_cases hw : layer = layer ∧ bb < c2.batchSize ∧ h < min v.heads c2.numKVHeads ∧
          min b c2.maxContextLength ≤ p ∧ p < min e c2.maxContextLength ∧ d < c2.headDim
      · rw [if_pos hw, if_pos hw]
      · rw [if_neg hw, if_neg hw]
        exact hv bb h p d (by omega)
    · rw [if_neg hcond, if_neg hcond]
  show Chunk.mk c1.batchSize c1.numKVHeads (min e c1.maxContextLength) c1.headDim _ =
    Chunk.mk c2.batchSize c2.numKVHeads (min e c2.maxContextLength) c2.headDim _
  rw [hB, hH, hM, hD]
  exact congrArg _ hdata

/-- The `Except` component of an `update` depends only on the cache's
shape fields and on the buffer contents at positions below `e` in the
addressed layer. -/
lemma update_fst_congr (c1 c2 : KVCache) (k v : Chunk) (layer b e : Nat)
    (hNL : c1.numLayers = c2.numLayers) (hB : c1.batchSize = c2.batchSize)
    (hH : c1.numKVHeads = c2.numKVHeads) (hM : c1.maxContextLength = c2.maxContextLength)
    (hD : c1.headDim = c2.headDim)
    (hk : ∀ bb h pos d, pos < e → c1.k_cache layer bb h pos d = c2.k_cache layer bb h pos d)
    (hv : ∀ bb h pos d, pos < e → c1.v_cache layer bb h pos d = c2.v_cache layer bb h pos d) :
    (update c1 k v layer [b, e]).1 = (update c2 k v layer [b, e]).1 := by
  unfold update
  rw [if_neg (show ¬ ([b, e].length ≠ 2) by simp),
    if_neg (show ¬ ([b, e].length ≠ 2) by simp)]
  simp only [List.getD_cons_zero, List.getD_cons_succ]
  rw [hNL]
  by_cases hL : c2.numLayers ≤ layer
  · rw [if_pos hL, if_pos hL]
  · rw [if_neg hL, if_neg hL, assignOk_congr c1 c2 k b e hB hH hM hD]
    have hvshape : assignOk (writeK c1 k layer b e) v b e =
        assignOk (writeK c2 k layer b e) v b e := by
      show assignOk c1 v b e = assignOk c2 v b e
      exact assignOk_congr c1 c2 v b e hB hH hM hD
    rw [hvshape]
    by_cases hak : assignOk c2 k b e = true
    · have hkn : ¬ (¬ assignOk c2 k b e = true) := by simp [hak]
      rw [if_neg hkn, if_neg hkn]
      by_cases hav : assignOk (writeK c2 k layer b e) v b e = true
      · have havn : ¬ (¬ assignOk (writeK c2 k layer b e) v b e = true) := by simp [hav]
        rw [if_neg havn, if_neg havn]
        rw [readPrefixK_post_congr c1 c2 k v layer b e hB hH hM hD hk,
          readPrefixV_post_congr c1 c2 k v layer b e hB hH hM hD hv]
      · have havy : ¬ assignOk (writeK c2 k layer b e) v b e = true := by simp [hav]
        rw [if_pos havy, if_pos havy]
    · have hky : ¬ assignOk c2 k b e = true := by simp [hak]
      rw [if_pos hky, if_pos hky]

/-- C5: the output of the per-layer attention step depends only on
cache positions `[0, end_step)` with `end_step = attention_mask`'s last
dimension (`occupancyBefore + newTokenCount`): two caches of equal
shape that agree on the addressed layer's buffers below that bound —
however they differ at or beyond it — make the step return the same
output, whatever the (opaque) scaled-dot-product-attention computes,
because the prefixes `update` returns expose nothing at or beyond the
bound. -/
theorem C5_output_ignores_stale_positions {α : Type} (sdpa : Chunk → Chunk → α)
    (c1 c2 : KVCache) (k v : Chunk) (layer maskCols q_len : Nat)
    (hNL : c1.numLayers = c2.numLayers) (hB : c1.batchSize = c2.batchSize)
    (hH : c1.numKVHeads = c2.numKVHeads) (hM : c1.maxContextLength = c2.maxContextLength)
    (hD : c1.headDim = c2.headDim)
    (hk : ∀ bb h pos d, pos < maskCols →
      c1.k_cache layer bb h pos d = c2.k_cache layer bb h pos d)
    (hv : ∀ bb h pos d, pos < maskCols →
      c1.v_cache layer bb h pos d = c2.v_cache layer bb h pos d) :
    (attnStep sdpa c1 k v layer maskCols q_len).1 =
      (attnStep sdpa c2 k v layer maskCols q_len).1 := by
  have hfst := update_fst_congr c1 c2 k v layer (maskCols - q_len) maskCols
    hNL hB hH hM hD hk hv
  simp only [attnStep, sliceIndicesOf]
  rcases hu1 : update c1 k v layer [maskCols - q_len, maskCols] with ⟨r1, d1⟩
  rcases hu2 : update c2 k v layer [maskCols - q_len, maskCols] with ⟨r2, d2⟩
  rw [hu1, hu2] at hfst
  have hr : r1 = r2 := hfst
  subst hr
  cases r1 <;> rfl

/-- A concrete opaque attention function for the witness. -/
def demoSdpa : Chunk → Chunk → Int := fun kc vc => kc.data 0 0 0 0 + vc.data 0 0 0 0

theorem C5_output_ignores_stale_positions_witness :
    (attnStep demoSdpa demoCache (constChunk 1 5) (constChunk 1 7) 0 1 1).1 =
      (attnStep demoSdpa demoCacheStale (constChunk 1 5) (constChunk 1 7) 0 1 1).1 := by
  refine C5_output_ignores_stale_positions demoSdpa demoCache demoCacheStale
    (constChunk 1 5) (constChunk 1 7) 0 1 1 rfl rfl rfl rfl rfl ?_ ?_
  · intro bb h pos d hpos
    have hz : pos = 0 := by omega
    subst hz
    rfl
  · intro bb h pos d hpos
    have hz : pos = 0 := by omega
    subst hz
    rfl

end Mistral7B
